import Mathlib

/-!
Verification development for the resilience utilities of the Discord-Bot
repository: the multi-endpoint HTTP client with circuit breaker, retry/backoff
and response caching (`src/functions/utils/apiManager.ts`), the sliding
fixed-window rate limiter (`src/functions/utils/sanitizer.ts`), and the health
aggregation (`src/functions/utils/healthCheck.ts`).

Modelling conventions:
* JavaScript `Map<string, T>` is embedded as `String → Option T` with a
  pointwise update `mapSet`.
* `Date.now()` is passed in explicitly as a `Nat` parameter `now`; one
  `request` call uses a single `now` (none of the verified properties depend
  on time advancing inside a single call).
* The network (`fetch` + response decoding) is an oracle
  `String → Nat → AttemptOutcome`: for an endpoint URL and a, 0-based, attempt
  number it yields either a parsed JSON payload or a failure (network error,
  timeout, or non-2xx status — the distinction is irrelevant to control flow).
* `ApiManager.request` reads a breaker with a TypeScript non-null assertion
  (`this.circuitBreakers.get(circuitKey)!`); the embedding uses
  `Option.getD ⟨0, 0, false⟩`, which coincides on every state reachable through
  `registerApi` (that method initializes a breaker for each endpoint).
* Payload and error values are opaque type parameters `V` and `E`.
-/

namespace DiscordBot

/-- Pointwise update of a string-keyed map, the embedding of `Map.set`. -/
def mapSet {β : Type} (m : String → Option β) (k : String) (v : β) :
    String → Option β :=
  fun q => if q = k then some v else m q

/-- Key construction `` `${a}:${b}` `` used for circuit-breaker keys
(`apiName:url`), cache keys (`apiName:path`) and rate-limit keys
(`limitKey:identifier`). -/
def joinKey (a b : String) : String := a ++ ":" ++ b

/-- Outcome of one HTTP attempt, as the API manager observes it: either a
parsed JSON body or an error (network failure, timeout, or the non-2xx
`HTTP status` error thrown in `makeRequest`). -/
inductive AttemptOutcome (V E : Type) where
  | ok (v : V)
  | fail (e : E)
deriving DecidableEq

instance {E V : Type} [DecidableEq E] [DecidableEq V] : DecidableEq (Except E V) :=
  fun a b =>
    match a, b with
    | .ok x, .ok y =>
      if h : x = y then .isTrue (by rw [h]) else .isFalse (fun hc => h (Except.ok.inj hc))
    | .ok _, .error _ => .isFalse (fun hc => Except.noConfusion hc)
    | .error _, .ok _ => .isFalse (fun hc => Except.noConfusion hc)
    | .error x, .error y =>
      if h : x = y then .isTrue (by rw [h]) else .isFalse (fun hc => h (Except.error.inj hc))

/-- Result of `ApiManager.makeRequest`: the value returned or the error
thrown, plus the backoff delays slept between attempts and the number of
`fetch` attempts performed. -/
structure FetchResult (V E : Type) where
  result : Except E V
  delays : List Nat
  attempts : Nat
deriving DecidableEq

/-- `Math.min(1000 * Math.pow(2, attempt), 10000)` — the exponential backoff
delay slept after failed attempt number `attempt` (0-based). -/
def backoffDelay (attempt : Nat) : Nat := min (1000 * 2 ^ attempt) 10000

/-- The retry loop of `ApiManager.makeRequest`, for attempt numbers
`attempt, attempt+1, …`; the second argument is the number of attempts still
allowed after the current one (`retries - attempt` in the source loop). -/
def makeRequestAux {V E : Type} (oracle : Nat → AttemptOutcome V E)
    (attempt : Nat) : Nat → FetchResult V E
  | 0 =>
    match oracle attempt with
    | .ok v => ⟨.ok v, [], 1⟩
    | .fail e => ⟨.error e, [], 1⟩
  | fuel + 1 =>
    match oracle attempt with
    | .ok v => ⟨.ok v, [], 1⟩
    | .fail _ =>
      let r := makeRequestAux oracle (attempt + 1) fuel
      ⟨r.result, backoffDelay attempt :: r.delays, r.attempts + 1⟩

/-- `ApiManager.makeRequest` for one endpoint: attempts `0..retries`
inclusive; on success returns the parsed body; after a failed non-final
attempt sleeps `backoffDelay attempt`; the error of the final attempt is
propagated. -/
def makeRequest {V E : Type} (oracle : Nat → AttemptOutcome V E)
    (retries : Nat) : FetchResult V E :=
  makeRequestAux oracle 0 retries

/-- `ApiEndpoint` of `apiManager.ts`. -/
structure Endpoint where
  url : String
  priority : Nat
  timeout : Option Nat
  retries : Option Nat
deriving DecidableEq

/-- `ApiConfig`, the registration input of `registerApi`. -/
structure ApiConfig where
  baseUrl : String
  fallbackUrls : Option (List String)
  timeout : Option Nat
  retries : Option Nat
  circuitBreakerThreshold : Option Nat
  circuitBreakerResetTime : Option Nat
deriving DecidableEq

/-- `InternalApiConfig`. -/
structure InternalApiConfig where
  name : String
  endpoints : List Endpoint
  defaultTimeout : Nat
  defaultRetries : Nat
  circuitBreakerThreshold : Nat
  circuitBreakerResetTime : Nat
deriving DecidableEq

/-- `CircuitBreakerState`. -/
structure CircuitBreakerState where
  failures : Nat
  lastFailure : Nat
  isOpen : Bool
deriving DecidableEq

/-- A cache entry `{ data, timestamp, ttl }`. -/
structure CacheEntry (V : Type) where
  data : V
  timestamp : Nat
  ttl : Nat
deriving DecidableEq

/-- The three private maps of the `ApiManager` class. -/
structure ManagerState (V : Type) where
  configs : String → Option InternalApiConfig
  breakers : String → Option CircuitBreakerState
  cache : String → Option (CacheEntry V)

/-- JavaScript `x || d` on an optional number: `undefined` and `0` are both
falsy, so the default replaces them. -/
def falsyOr (o : Option Nat) (d : Nat) : Nat :=
  match o with
  | none => d
  | some n => if n = 0 then d else n

/-- The endpoint list built by `registerApi`: the primary `baseUrl` at
priority 1, then each fallback URL at priority `index + 2` in input order
(`forEach((url, index) => push({priority: index + 2, …}))`). -/
def buildEndpoints (config : ApiConfig) : List Endpoint :=
  { url := config.baseUrl, priority := 1, timeout := config.timeout,
    retries := config.retries } ::
    (config.fallbackUrls.getD []).enum.map
      (fun p => { url := p.2, priority := p.1 + 2, timeout := config.timeout,
                  retries := config.retries })

/-- The `InternalApiConfig` stored by `registerApi`, defaults applied with
JavaScript `||` (`timeout || 10000`, `retries || 3`, threshold `|| 5`,
reset time `|| 60000`). -/
def toInternalConfig (name : String) (config : ApiConfig) : InternalApiConfig :=
  { name := name
    endpoints := buildEndpoints config
    defaultTimeout := falsyOr config.timeout 10000
    defaultRetries := falsyOr config.retries 3
    circuitBreakerThreshold := falsyOr config.circuitBreakerThreshold 5
    circuitBreakerResetTime := falsyOr config.circuitBreakerResetTime 60000 }

/-- `ApiManager.registerApi`: stores the internal config under `name` and
initializes a closed zero-failure breaker for every endpoint of the new
list. -/
def registerApi {V : Type} (s : ManagerState V) (name : String)
    (config : ApiConfig) : ManagerState V :=
  let endpoints := buildEndpoints config
  { configs := mapSet s.configs name (toInternalConfig name config)
    breakers := endpoints.foldl
      (fun b ep => mapSet b (joinKey name ep.url) ⟨0, 0, false⟩) s.breakers
    cache := s.cache }

/-- `ApiManager.isCircuitOpen`: returns the decision together with the
(possibly lazily reset) breaker state, since the source mutates `state` in
place in the reset branch. -/
def isCircuitOpen (st : CircuitBreakerState) (config : InternalApiConfig)
    (now : Nat) : Bool × CircuitBreakerState :=
  if st.isOpen = false then (false, st)
  else if config.circuitBreakerResetTime < now - st.lastFailure then
    (false, { st with isOpen := false, failures := 0 })
  else (true, st)

/-- `ApiManager.recordFailure`: increment the failure count, stamp the
failure time, and open the breaker once the count reaches the threshold. -/
def recordFailure (st : CircuitBreakerState) (config : InternalApiConfig)
    (now : Nat) : CircuitBreakerState :=
  let s1 : CircuitBreakerState :=
    { st with failures := st.failures + 1, lastFailure := now }
  if config.circuitBreakerThreshold ≤ s1.failures then
    { s1 with isOpen := true }
  else s1

/-- `ApiManager.resetCircuitBreaker`. -/
def resetCircuitBreaker (st : CircuitBreakerState) : CircuitBreakerState :=
  { st with failures := 0, isOpen := false }

/-- Result of the endpoint walk inside `ApiManager.request`: the successful
payload if any endpoint succeeded, the breaker map after all mutations, the
`lastError` variable, and the cumulative number of network attempts. -/
structure LoopResult (V E : Type) where
  success : Option V
  breakers : String → Option CircuitBreakerState
  lastError : Option E
  attempts : Nat

/-- The `for (const endpoint of config.endpoints)` loop of
`ApiManager.request`: skip an endpoint whose breaker is open and not yet
expired, otherwise attempt it through `makeRequest`; reset the breaker and
stop on success, record the failure and continue otherwise. -/
def requestLoop {V E : Type} (config : InternalApiConfig)
    (oracle : String → Nat → AttemptOutcome V E) (now : Nat) (apiName : String) :
    List Endpoint → (String → Option CircuitBreakerState) → Option E → Nat →
    LoopResult V E
  | [], b, le, a => ⟨none, b, le, a⟩
  | ep :: rest, b, le, a =>
    let k := joinKey apiName ep.url
    let st := (b k).getD ⟨0, 0, false⟩
    let p := isCircuitOpen st config now
    if p.1 then requestLoop config oracle now apiName rest b le a
    else
      let b1 := mapSet b k p.2
      let fr := makeRequest (oracle ep.url) (falsyOr ep.retries config.defaultRetries)
      match fr.result with
      | .ok v =>
        ⟨some v, mapSet b1 k (resetCircuitBreaker p.2), le, a + fr.attempts⟩
      | .error e =>
        requestLoop config oracle now apiName rest
          (mapSet b1 k (recordFailure p.2 config now)) (some e) (a + fr.attempts)

/-- The errors `ApiManager.request` can throw: the unknown-API error, or the
terminal `throw lastError || new Error(...)` (`upstreamUnavailable none` is
the generic error thrown when no endpoint was ever attempted). -/
inductive RequestError (E : Type) where
  | configNotFound (apiName : String)
  | upstreamUnavailable (lastError : Option E)
deriving DecidableEq

/-- Result of one `ApiManager.request` call: the returned value or thrown
error, the manager state afterwards, and the number of network attempts
made. -/
structure RequestOutcome (V E : Type) where
  res : Except (RequestError E) V
  state : ManagerState V
  attempts : Nat

/-- The fresh-cache lookup at the top of `ApiManager.request`: a hit only
when `cacheTtl > 0` and `now - cached.timestamp < cached.ttl`. -/
def freshCacheHit {V : Type} (s : ManagerState V) (cacheKey : String)
    (cacheTtl now : Nat) : Option (CacheEntry V) :=
  if 0 < cacheTtl then
    match s.cache cacheKey with
    | some cached => if now - cached.timestamp < cached.ttl then some cached else none
    | none => none
  else none

/-- `ApiManager.request`: fresh-cache check, endpoint walk with breaker and
retry handling, cache write on success, stale-cache fallback, terminal
throw. -/
def request {V E : Type} (s : ManagerState V)
    (oracle : String → Nat → AttemptOutcome V E) (now : Nat)
    (apiName path : String) (cacheTtl : Nat) : RequestOutcome V E :=
  match s.configs apiName with
  | none => ⟨.error (.configNotFound apiName), s, 0⟩
  | some config =>
    let cacheKey := joinKey apiName path
    match freshCacheHit s cacheKey cacheTtl now with
    | some cached => ⟨.ok cached.data, s, 0⟩
    | none =>
      let lr := requestLoop config oracle now apiName config.endpoints s.breakers none 0
      match lr.success with
      | some v =>
        let cache1 := if 0 < cacheTtl then mapSet s.cache cacheKey ⟨v, now, cacheTtl⟩
                      else s.cache
        ⟨.ok v, ⟨s.configs, lr.breakers, cache1⟩, lr.attempts⟩
      | none =>
        match s.cache cacheKey with
        | some cached => ⟨.ok cached.data, ⟨s.configs, lr.breakers, s.cache⟩, lr.attempts⟩
        | none =>
          ⟨.error (.upstreamUnavailable lr.lastError),
           ⟨s.configs, lr.breakers, s.cache⟩, lr.attempts⟩

/-- The hypothesis of claim C3, as a step relation over the endpoint walk:
every endpoint is either skipped (breaker open, reset window not elapsed) or
fails after exhausting its retries (with a closed breaker, or an open one
whose reset window has elapsed). The final index is the value of the
`lastError` variable once the walk ends. -/
inductive Exhausted {V E : Type} (config : InternalApiConfig)
    (oracle : String → Nat → AttemptOutcome V E) (now : Nat) (apiName : String) :
    List Endpoint → (String → Option CircuitBreakerState) → Option E →
    Option E → Prop
  | nil (b : String → Option CircuitBreakerState) (le : Option E) :
      Exhausted config oracle now apiName [] b le le
  | skip (ep : Endpoint) (rest : List Endpoint)
      (b : String → Option CircuitBreakerState) (le leF : Option E)
      (st : CircuitBreakerState)
      (hst : (b (joinKey apiName ep.url)).getD ⟨0, 0, false⟩ = st)
      (hopen : st.isOpen = true)
      (hwithin : ¬ config.circuitBreakerResetTime < now - st.lastFailure)
      (htail : Exhausted config oracle now apiName rest b le leF) :
      Exhausted config oracle now apiName (ep :: rest) b le leF
  | failClosed (ep : Endpoint) (rest : List Endpoint)
      (b : String → Option CircuitBreakerState) (le leF : Option E)
      (st : CircuitBreakerState) (e : E)
      (hst : (b (joinKey apiName ep.url)).getD ⟨0, 0, false⟩ = st)
      (hclosed : st.isOpen = false)
      (herr : (makeRequest (oracle ep.url)
        (falsyOr ep.retries config.defaultRetries)).result = .error e)
      (htail : Exhausted config oracle now apiName rest
        (mapSet b (joinKey apiName ep.url) (recordFailure st config now))
        (some e) leF) :
      Exhausted config oracle now apiName (ep :: rest) b le leF
  | failExpired (ep : Endpoint) (rest : List Endpoint)
      (b : String → Option CircuitBreakerState) (le leF : Option E)
      (st : CircuitBreakerState) (e : E)
      (hst : (b (joinKey apiName ep.url)).getD ⟨0, 0, false⟩ = st)
      (hopen : st.isOpen = true)
      (hexpired : config.circuitBreakerResetTime < now - st.lastFailure)
      (herr : (makeRequest (oracle ep.url)
        (falsyOr ep.retries config.defaultRetries)).result = .error e)
      (htail : Exhausted config oracle now apiName rest
        (mapSet b (joinKey apiName ep.url)
          (recordFailure { st with isOpen := false, failures := 0 } config now))
        (some e) leF) :
      Exhausted config oracle now apiName (ep :: rest) b le leF

/-- Health status levels of `healthCheck.ts`. -/
inductive HealthStatus where
  | healthy
  | degraded
  | unhealthy
deriving DecidableEq

/-- One entry of the `checks` array of `performHealthCheck` (fields other
than the status do not influence the overall classification). -/
structure HealthCheckResult where
  name : String
  status : HealthStatus
deriving DecidableEq

/-- The overall-status computation of `HealthChecker.performHealthCheck`:
count unhealthy and degraded checks and classify worst-first. -/
def overallStatus (checks : List HealthCheckResult) : HealthStatus :=
  let unhealthyCount := (checks.filter (fun c => c.status == .unhealthy)).length
  let degradedCount := (checks.filter (fun c => c.status == .degraded)).length
  if 0 < unhealthyCount then .unhealthy
  else if 0 < degradedCount then .degraded
  else .healthy

/-- `RateLimitData` of `sanitizer.ts`. -/
structure RateLimitData where
  count : Nat
  resetTime : Nat
deriving DecidableEq

/-- `RateLimitConfig`. -/
structure RateLimitConfig where
  maxRequests : Nat
  windowMs : Nat
  skipSuccessfulRequests : Option Bool
deriving DecidableEq

/-- The object returned by `RateLimiter.checkLimit`; `warned` records whether
the unknown-`limitKey` warning was logged. `remaining` is an `Int` because
`maxRequests - 1` can be negative in JavaScript. -/
structure CheckResult where
  allowed : Bool
  resetTime : Option Nat
  remaining : Option Int
  warned : Bool
deriving DecidableEq

/-- The two maps of the `RateLimiter` class. -/
structure RateLimiterState where
  limits : String → Option RateLimitData
  configs : String → Option RateLimitConfig

/-- `RateLimiter.registerLimit`. -/
def registerLimit (s : RateLimiterState) (key : String)
    (config : RateLimitConfig) : RateLimiterState :=
  { s with configs := mapSet s.configs key config }

/-- `RateLimiter.checkLimit`: fail-open on an unknown key; start a fresh
window when there is no record or the window expired; deny without mutation
at the limit; otherwise increment. -/
def checkLimit (s : RateLimiterState) (identifier limitKey : String)
    (now : Nat) : CheckResult × RateLimiterState :=
  match s.configs limitKey with
  | none => (⟨true, none, none, true⟩, s)
  | some config =>
    let key := joinKey limitKey identifier
    match s.limits key with
    | none =>
      (⟨true, some (now + config.windowMs), some ((config.maxRequests : Int) - 1), false⟩,
       { s with limits := mapSet s.limits key ⟨1, now + config.windowMs⟩ })
    | some current =>
      if current.resetTime ≤ now then
        (⟨true, some (now + config.windowMs), some ((config.maxRequests : Int) - 1), false⟩,
         { s with limits := mapSet s.limits key ⟨1, now + config.windowMs⟩ })
      else if config.maxRequests ≤ current.count then
        (⟨false, some current.resetTime, some 0, false⟩, s)
      else
        (⟨true, some current.resetTime,
          some ((config.maxRequests : Int) - (current.count + 1)), false⟩,
         { s with limits := mapSet s.limits key ⟨current.count + 1, current.resetTime⟩ })

/-- A sequence of `checkLimit` calls for a fixed identifier and limit key at
the given times, threading the limiter state. -/
def checkSeq (identifier limitKey : String) :
    RateLimiterState → List Nat → List CheckResult × RateLimiterState
  | s, [] => ([], s)
  | s, t :: ts =>
    let r := checkLimit s identifier limitKey t
    let rest := checkSeq identifier limitKey r.2 ts
    (r.1 :: rest.1, rest.2)

/-! ## Concrete fixtures used by witnesses and counterexamples -/

/-- An `ApiManager` with nothing registered. -/
def emptyManager : ManagerState Nat :=
  ⟨fun _ => none, fun _ => none, fun _ => none⟩

/-- API `"a"` whose fallback list repeats the primary URL: endpoints
`[u, u, v]`. -/
def mgrDup : ManagerState Nat :=
  registerApi emptyManager "a" ⟨"u", some ["u", "v"], none, none, none, none⟩

/-- API `"a"` with pairwise-distinct endpoint URLs `[u, w, v]`. -/
def mgrDistinct : ManagerState Nat :=
  registerApi emptyManager "a" ⟨"u", some ["w", "v"], none, none, none, none⟩

/-- Network oracle: endpoint `"v"` answers 42 on every attempt, every other
endpoint fails every attempt with error 7. -/
def oracleOnlyV : String → Nat → AttemptOutcome Nat Nat :=
  fun url _ => if url = "v" then .ok 42 else .fail 7

/-- The internal config stored for `mgrDistinct`. -/
def cfgDistinct : InternalApiConfig :=
  toInternalConfig "a" ⟨"u", some ["w", "v"], none, none, none, none⟩

/-- A small internal config: breaker threshold 2, reset time 1000 ms. -/
def cfgSmall : InternalApiConfig :=
  ⟨"a", [⟨"u", 1, none, none⟩], 10000, 3, 2, 1000⟩

/-- A breaker map in which endpoint `"u"` of API `"a"` is open since time
500 with 2 recorded failures. -/
def breakersOpenU : String → Option CircuitBreakerState :=
  fun k => if k = "a:u" then some ⟨2, 500, true⟩ else none

/-- API `"a"` with the single endpoint `u`. -/
def mgrSingle : ManagerState Nat :=
  registerApi emptyManager "a" ⟨"u", none, none, none, none, none⟩

/-- Oracle that answers 7 on every attempt of every endpoint. -/
def oracleAlways7 : String → Nat → AttemptOutcome Nat Nat :=
  fun _ _ => .ok 7

/-- The internal config of API `"a"` with endpoints `[u, x]`. -/
def cfgUX : InternalApiConfig :=
  toInternalConfig "a" ⟨"u", some ["x"], none, none, none, none⟩

/-- Manager state for the C3 witness: API `"a"` with endpoints `[u, x]`,
breaker of `u` open since time 100 with 5 failures, breaker of `x` closed,
empty cache. -/
def mgrExhausted : ManagerState Nat :=
  ⟨fun n => if n = "a" then some cfgUX else none,
   fun k =>
     if k = "a:u" then some ⟨5, 100, true⟩
     else if k = "a:x" then some ⟨0, 0, false⟩
     else none,
   fun _ => none⟩

/-- Rate limiter state with the policy `"k"` registered with
`maxRequests = 0` and no stored windows. -/
def rlZero : RateLimiterState :=
  ⟨fun _ => none, fun k => if k = "k" then some ⟨0, 60000, none⟩ else none⟩

/-- Rate limiter with the policy `"command"` = {10, 60000} and no windows. -/
def rlTen : RateLimiterState :=
  ⟨fun _ => none, fun k => if k = "command" then some ⟨10, 60000, none⟩ else none⟩

/-- `rlTen` with the window for `"command:user1"` already at the limit. -/
def rlDen : RateLimiterState :=
  ⟨fun k => if k = "command:user1" then some ⟨10, 60000⟩ else none,
   fun k => if k = "command" then some ⟨10, 60000, none⟩ else none⟩

/-! ## Theorems -/

theorem mapSet_eq {β : Type} (m : String → Option β) (k : String) (v : β) :
    mapSet m k v k = some v := by
  simp [mapSet]

theorem mapSet_ne {β : Type} (m : String → Option β) (k q : String) (v : β)
    (h : q ≠ k) : mapSet m k v q = m q := by
  simp [mapSet, h]

theorem mapSet_mapSet {β : Type} (m : String → Option β) (k : String) (a b : β) :
    mapSet (mapSet m k a) k b = mapSet m k b := by
  funext q
  by_cases h : q = k <;> simp [mapSet, h]

theorem makeRequestAux_all_fail {V E : Type} (oracle : Nat → AttemptOutcome V E)
    (f : Nat → E) :
    ∀ (fuel attempt : Nat), (∀ i, i ≤ attempt + fuel → oracle i = .fail (f i)) →
      makeRequestAux oracle attempt fuel =
        ⟨.error (f (attempt + fuel)),
         (List.range' attempt fuel).map backoffDelay, fuel + 1⟩ := by
  intro fuel
  induction fuel with
  | zero =>
    intro attempt h
    simp [makeRequestAux, h attempt (Nat.le_refl _)]
  | succ n ih =>
    intro attempt h
    have h0 : oracle attempt = .fail (f attempt) := h attempt (by omega)
    have ihh := ih (attempt + 1) (fun i hi => h i (by omega))
    have harg : attempt + 1 + n = attempt + (n + 1) := by omega
    simp only [makeRequestAux, h0, ihh, List.range'_succ, List.map_cons]
    rw [harg]

/-- C5: an endpoint attempt with retry budget `maxRetries` whose every HTTP
attempt fails makes exactly `maxRetries + 1` attempts, sleeps exactly
`min(1000 * 2^i, 10000)` ms after failed attempt `i` for each `i < maxRetries`
(so no delay after the final attempt), and propagates the final attempt's
error. -/
theorem makeRequest_exhausts_retries {V E : Type}
    (oracle : Nat → AttemptOutcome V E) (f : Nat → E) (maxRetries : Nat)
    (hfail : ∀ i, i ≤ maxRetries → oracle i = .fail (f i)) :
    makeRequest oracle maxRetries =
      ⟨.error (f maxRetries),
       (List.range maxRetries).map (fun i => min (1000 * 2 ^ i) 10000),
       maxRetries + 1⟩ := by
  have h := makeRequestAux_all_fail oracle f maxRetries 0
    (by simpa using hfail)
  simp only [makeRequest] at h ⊢
  rw [h, List.range_eq_range']
  simp [backoffDelay]

/-- Witness for C5 at `maxRetries = 2`: exactly 3 attempts, delays 1000 ms
then 2000 ms, and the error of attempt 2 is propagated. -/
theorem makeRequest_exhausts_retries_witness :
    makeRequest (fun i => @AttemptOutcome.fail Nat Nat i) 2 =
      ⟨.error 2, [1000, 2000], 3⟩ := by
  have h := makeRequest_exhausts_retries (fun i => @AttemptOutcome.fail Nat Nat i)
    (fun i => i) 2 (fun i _ => rfl)
  rw [h]
  decide

theorem makeRequestAux_attempts_pos {V E : Type}
    (oracle : Nat → AttemptOutcome V E) (attempt fuel : Nat) :
    1 ≤ (makeRequestAux oracle attempt fuel).attempts := by
  cases fuel <;> cases h : oracle attempt <;> simp [makeRequestAux, h]

theorem makeRequest_attempts_pos {V E : Type}
    (oracle : Nat → AttemptOutcome V E) (retries : Nat) :
    1 ≤ (makeRequest oracle retries).attempts :=
  makeRequestAux_attempts_pos oracle 0 retries

theorem requestLoop_skip {V E : Type} (config : InternalApiConfig)
    (oracle : String → Nat → AttemptOutcome V E) (now : Nat) (apiName : String)
    (ep : Endpoint) (rest : List Endpoint)
    (b : String → Option CircuitBreakerState) (le : Option E) (a : Nat)
    (st : CircuitBreakerState)
    (hst : (b (joinKey apiName ep.url)).getD ⟨0, 0, false⟩ = st)
    (hopen : st.isOpen = true)
    (hwithin : ¬ config.circuitBreakerResetTime < now - st.lastFailure) :
    requestLoop config oracle now apiName (ep :: rest) b le a =
      requestLoop config oracle now apiName rest b le a := by
  simp [requestLoop, hst, isCircuitOpen, hopen, hwithin]

theorem requestLoop_fail_closed {V E : Type} (config : InternalApiConfig)
    (oracle : String → Nat → AttemptOutcome V E) (now : Nat) (apiName : String)
    (ep : Endpoint) (rest : List Endpoint)
    (b : String → Option CircuitBreakerState) (le : Option E) (a : Nat)
    (st : CircuitBreakerState) (e : E)
    (hst : (b (joinKey apiName ep.url)).getD ⟨0, 0, false⟩ = st)
    (hclosed : st.isOpen = false)
    (herr : (makeRequest (oracle ep.url)
      (falsyOr ep.retries config.defaultRetries)).result = .error e) :
    requestLoop config oracle now apiName (ep :: rest) b le a =
      requestLoop config oracle now apiName rest
        (mapSet b (joinKey apiName ep.url) (recordFailure st config now)) (some e)
        (a + (makeRequest (oracle ep.url)
          (falsyOr ep.retries config.defaultRetries)).attempts) := by
  simp [requestLoop, hst, isCircuitOpen, hclosed, herr, mapSet_mapSet]

theorem requestLoop_fail_expired {V E : Type} (config : InternalApiConfig)
    (oracle : String → Nat → AttemptOutcome V E) (now : Nat) (apiName : String)
    (ep : Endpoint) (rest : List Endpoint)
    (b : String → Option CircuitBreakerState) (le : Option E) (a : Nat)
    (st : CircuitBreakerState) (e : E)
    (hst : (b (joinKey apiName ep.url)).getD ⟨0, 0, false⟩ = st)
    (hopen : st.isOpen = true)
    (hexpired : config.circuitBreakerResetTime < now - st.lastFailure)
    (herr : (makeRequest (oracle ep.url)
      (falsyOr ep.retries config.defaultRetries)).result = .error e) :
    requestLoop config oracle now apiName (ep :: rest) b le a =
      requestLoop config oracle now apiName rest
        (mapSet b (joinKey apiName ep.url)
          (recordFailure { st with isOpen := false, failures := 0 } config now))
        (some e)
        (a + (makeRequest (oracle ep.url)
          (falsyOr ep.retries config.defaultRetries)).attempts) := by
  simp [requestLoop, hst, isCircuitOpen, hopen, hexpired, herr, mapSet_mapSet]

theorem requestLoop_success_closed {V E : Type} (config : InternalApiConfig)
    (oracle : String → Nat → AttemptOutcome V E) (now : Nat) (apiName : String)
    (ep : Endpoint) (rest : List Endpoint)
    (b : String → Option CircuitBreakerState) (le : Option E) (a : Nat)
    (st : CircuitBreakerState) (v : V)
    (hst : (b (joinKey apiName ep.url)).getD ⟨0, 0, false⟩ = st)
    (hclosed : st.isOpen = false)
    (hok : (makeRequest (oracle ep.url)
      (falsyOr ep.retries config.defaultRetries)).result = .ok v) :
    requestLoop config oracle now apiName (ep :: rest) b le a =
      ⟨some v, mapSet b (joinKey apiName ep.url) (resetCircuitBreaker st), le,
       a + (makeRequest (oracle ep.url)
         (falsyOr ep.retries config.defaultRetries)).attempts⟩ := by
  simp [requestLoop, hst, isCircuitOpen, hclosed, hok, mapSet_mapSet]

theorem requestLoop_attempts_le {V E : Type} (config : InternalApiConfig)
    (oracle : String → Nat → AttemptOutcome V E) (now : Nat) (apiName : String) :
    ∀ (l : List Endpoint) (b : String → Option CircuitBreakerState)
      (le : Option E) (a : Nat),
      a ≤ (requestLoop config oracle now apiName l b le a).attempts := by
  intro l
  induction l with
  | nil => intro b le a; simp [requestLoop]
  | cons ep rest ih =>
    intro b le a
    simp only [requestLoop]
    split
    · exact ih b le a
    · split
      · exact Nat.le_add_right a _
      · exact le_trans (Nat.le_add_right a _) (ih _ _ _)

theorem recordFailure_failures (st : CircuitBreakerState)
    (config : InternalApiConfig) (now : Nat) :
    (recordFailure st config now).failures = st.failures + 1 := by
  simp only [recordFailure]
  split <;> rfl

theorem requestLoop_all_fail {V E : Type} (config : InternalApiConfig)
    (oracle : String → Nat → AttemptOutcome V E) (now : Nat) (apiName : String) :
    ∀ (l rest : List Endpoint) (b : String → Option CircuitBreakerState)
      (le : Option E) (a : Nat),
      (∀ ep ∈ l, ∃ st, b (joinKey apiName ep.url) = some st ∧ st.isOpen = false) →
      (∀ ep ∈ l, ∃ e, (makeRequest (oracle ep.url)
        (falsyOr ep.retries config.defaultRetries)).result = .error e) →
      (l.map (fun ep => joinKey apiName ep.url)).Nodup →
      ∃ b' le' a',
        requestLoop config oracle now apiName (l ++ rest) b le a =
          requestLoop config oracle now apiName rest b' le' a' ∧
        (∀ q, q ∉ l.map (fun ep => joinKey apiName ep.url) → b' q = b q) ∧
        (∀ ep ∈ l, ∃ st, b (joinKey apiName ep.url) = some st ∧
          b' (joinKey apiName ep.url) = some (recordFailure st config now)) := by
  intro l
  induction l with
  | nil =>
    intro rest b le a _ _ _
    exact ⟨b, le, a, rfl, fun q _ => rfl, fun ep h => absurd h (List.not_mem_nil ep)⟩
  | cons ep0 l ih =>
    intro rest b le a hclosed hfail hnd
    obtain ⟨st0, hst0, hop0⟩ := hclosed ep0 (List.mem_cons_self ep0 l)
    obtain ⟨e0, he0⟩ := hfail ep0 (List.mem_cons_self ep0 l)
    have hndc : joinKey apiName ep0.url ∉ l.map (fun ep => joinKey apiName ep.url) ∧
        (l.map (fun ep => joinKey apiName ep.url)).Nodup := by
      rw [List.map_cons, List.nodup_cons] at hnd
      exact hnd
    have hstep := requestLoop_fail_closed config oracle now apiName ep0 (l ++ rest)
      b le a st0 e0 (by rw [hst0]; rfl) hop0 he0
    have hclosed1 : ∀ ep ∈ l, ∃ st,
        mapSet b (joinKey apiName ep0.url) (recordFailure st0 config now)
          (joinKey apiName ep.url) = some st ∧ st.isOpen = false := by
      intro ep hep
      obtain ⟨st, hst, hop⟩ := hclosed ep (List.mem_cons_of_mem _ hep)
      refine ⟨st, ?_, hop⟩
      rw [mapSet_ne]
      · exact hst
      · intro hq
        exact hndc.1 (hq ▸ List.mem_map_of_mem (fun e => joinKey apiName e.url) hep)
    obtain ⟨b', le', a', heq, hframe, hinc⟩ := ih rest
      (mapSet b (joinKey apiName ep0.url) (recordFailure st0 config now)) (some e0)
      (a + (makeRequest (oracle ep0.url)
        (falsyOr ep0.retries config.defaultRetries)).attempts)
      hclosed1 (fun ep hep => hfail ep (List.mem_cons_of_mem _ hep)) hndc.2
    refine ⟨b', le', a', ?_, ?_, ?_⟩
    · rw [List.cons_append, hstep, heq]
    · intro q hq
      have hq0 : q ≠ joinKey apiName ep0.url := by
        intro h; exact hq (by simp [h])
      have hql : q ∉ l.map (fun ep => joinKey apiName ep.url) := by
        intro h; exact hq (by simp [h])
      rw [hframe q hql, mapSet_ne _ _ _ _ hq0]
    · intro ep hep
      rcases List.mem_cons.mp hep with h | h
      · subst h
        refine ⟨st0, hst0, ?_⟩
        rw [hframe _ hndc.1, mapSet_eq]
      · obtain ⟨st, hst, hb'⟩ := hinc ep h
        have hne : joinKey apiName ep.url ≠ joinKey apiName ep0.url := by
          intro hq
          exact hndc.1 (hq ▸ List.mem_map_of_mem (fun e => joinKey apiName e.url) h)
        rw [mapSet_ne _ _ _ _ hne] at hst
        exact ⟨st, hst, hb'⟩

/-- C1 counterexample: API `"a"` is registered with endpoint list
`[u, u, v]` (the fallback list repeats the primary URL), all breakers closed
with zero failures. Endpoints 1 and 2 both fail after exhausting their
retries and endpoint 3 succeeds, so `request` returns endpoint 3's payload —
but the breaker belonging to endpoint 1 (key `"a:u"`) ends with 2 failures,
not exactly one more than its previous count 0, because both failing
endpoints share the same breaker key. -/
theorem request_fallback_increment_cex :
    mgrDup.breakers "a:u" = some ⟨0, 0, false⟩ ∧
    (request mgrDup oracleOnlyV 100 "a" "" 0).res = .ok 42 ∧
    (request mgrDup oracleOnlyV 100 "a" "" 0).state.breakers "a:u" =
      some ⟨2, 100, false⟩ ∧
    (2 : Nat) ≠ 0 + 1 :=
  ⟨by decide, by decide, by decide, by decide⟩

/-- C1 (amended): for a registered API whose endpoints carry pairwise-distinct
circuit-breaker keys and whose breakers are all closed, if each of the first K
endpoints (in priority order) fails after exhausting its retries, endpoint
K+1 succeeds, and the call is not answered from fresh cache, then `request`
returns endpoint K+1's parsed result, each of the first K endpoints' breaker
failure counts is exactly one larger than before the call, and endpoint K+1's
breaker is reset to zero failures and closed. (The distinct-key hypothesis is
forced by `request_fallback_increment_cex`: endpoints sharing a URL share one
breaker, which is then incremented more than once.) -/
theorem request_fallback_success {V E : Type} (s : ManagerState V)
    (oracle : String → Nat → AttemptOutcome V E) (now : Nat)
    (apiName path : String) (cacheTtl : Nat) (config : InternalApiConfig)
    (failEps : List Endpoint) (succEp : Endpoint) (rest : List Endpoint) (v : V)
    (hcfg : s.configs apiName = some config)
    (heps : config.endpoints = failEps ++ succEp :: rest)
    (hkeys : ((failEps ++ [succEp]).map (fun ep => joinKey apiName ep.url)).Nodup)
    (hclosed : ∀ ep ∈ config.endpoints, ∃ st,
      s.breakers (joinKey apiName ep.url) = some st ∧ st.isOpen = false)
    (hfail : ∀ ep ∈ failEps, ∃ e, (makeRequest (oracle ep.url)
      (falsyOr ep.retries config.defaultRetries)).result = .error e)
    (hsucc : (makeRequest (oracle succEp.url)
      (falsyOr succEp.retries config.defaultRetries)).result = .ok v)
    (hnofresh : freshCacheHit s (joinKey apiName path) cacheTtl now = none) :
    (request s oracle now apiName path cacheTtl).res = .ok v ∧
    (∀ ep ∈ failEps, ∃ st,
      s.breakers (joinKey apiName ep.url) = some st ∧
      (request s oracle now apiName path cacheTtl).state.breakers
        (joinKey apiName ep.url) = some (recordFailure st config now) ∧
      (recordFailure st config now).failures = st.failures + 1) ∧
    (∃ st1,
      (request s oracle now apiName path cacheTtl).state.breakers
        (joinKey apiName succEp.url) = some st1 ∧
      st1.failures = 0 ∧ st1.isOpen = false) := by
  have hkeys' : ((failEps.map (fun ep => joinKey apiName ep.url)) ++
      [joinKey apiName succEp.url]).Nodup := by
    simpa using hkeys
  rw [List.nodup_append] at hkeys'
  have hnd1 := hkeys'.1
  have hsk : joinKey apiName succEp.url ∉
      failEps.map (fun ep => joinKey apiName ep.url) := by
    intro hmem
    exact hkeys'.2.2 hmem (List.mem_singleton.mpr rfl)
  obtain ⟨b', le', a', heq, hframe, hinc⟩ :=
    requestLoop_all_fail config oracle now apiName failEps (succEp :: rest)
      s.breakers none 0
      (fun ep hep => hclosed ep (by rw [heps]; exact List.mem_append_left _ hep))
      hfail hnd1
  obtain ⟨stS, hstS, hopS⟩ := hclosed succEp
    (by rw [heps]; exact List.mem_append_right _ (List.mem_cons_self _ _))
  have hstS' : b' (joinKey apiName succEp.url) = some stS := by
    rw [hframe _ hsk]; exact hstS
  have hstep := requestLoop_success_closed config oracle now apiName succEp rest
    b' le' a' stS v (by rw [hstS']; rfl) hopS hsucc
  have hloop : requestLoop config oracle now apiName config.endpoints
      s.breakers none 0 =
      ⟨some v, mapSet b' (joinKey apiName succEp.url) (resetCircuitBreaker stS),
       le', a' + (makeRequest (oracle succEp.url)
         (falsyOr succEp.retries config.defaultRetries)).attempts⟩ := by
    rw [heps, heq, hstep]
  refine ⟨?_, ?_, ?_⟩
  · simp [request, hcfg, hnofresh, hloop]
  · intro ep hep
    obtain ⟨st, hst, hb'⟩ := hinc ep hep
    refine ⟨st, hst, ?_, recordFailure_failures st config now⟩
    have hne : joinKey apiName ep.url ≠ joinKey apiName succEp.url := by
      intro h
      exact hsk (h ▸ List.mem_map_of_mem (fun e => joinKey apiName e.url) hep)
    simp only [request, hcfg, hnofresh, hloop]
    rw [mapSet_ne _ _ _ _ hne]
    exact hb'
  · refine ⟨resetCircuitBreaker stS, ?_, rfl, rfl⟩
    simp only [request, hcfg, hnofresh, hloop]
    exact mapSet_eq _ _ _

/-- Witness for the amended C1 at the API `[u, w, v]` with distinct URLs:
`u` and `w` fail, `v` answers 42. -/
theorem request_fallback_success_witness :
    (request mgrDistinct oracleOnlyV 100 "a" "" 0).res = .ok 42 ∧
    (∀ ep ∈ [(⟨"u", 1, none, none⟩ : Endpoint), ⟨"w", 2, none, none⟩], ∃ st,
      mgrDistinct.breakers (joinKey "a" ep.url) = some st ∧
      (request mgrDistinct oracleOnlyV 100 "a" "" 0).state.breakers
        (joinKey "a" ep.url) = some (recordFailure st cfgDistinct 100) ∧
      (recordFailure st cfgDistinct 100).failures = st.failures + 1) ∧
    (∃ st1,
      (request mgrDistinct oracleOnlyV 100 "a" "" 0).state.breakers
        (joinKey "a" (⟨"v", 3, none, none⟩ : Endpoint).url) = some st1 ∧
      st1.failures = 0 ∧ st1.isOpen = false) := by
  refine request_fallback_success mgrDistinct oracleOnlyV 100 "a" "" 0 cfgDistinct
    [⟨"u", 1, none, none⟩, ⟨"w", 2, none, none⟩] ⟨"v", 3, none, none⟩ [] 42
    (by decide) (by decide) (by decide) ?_ ?_ (by decide) (by decide)
  · intro ep hep
    fin_cases hep <;> exact ⟨⟨0, 0, false⟩, by decide, rfl⟩
  · intro ep hep
    fin_cases hep <;> exact ⟨7, by decide⟩

theorem recordFailure_foldl_opens (config : InternalApiConfig) :
    ∀ (times : List Nat) (st : CircuitBreakerState),
      config.circuitBreakerThreshold ≤ st.failures + times.length →
      1 ≤ times.length →
      (times.foldl (fun s1 t => recordFailure s1 config t) st).isOpen = true := by
  intro times
  induction times with
  | nil =>
    intro st _ hlen
    simp at hlen
  | cons t ts ih =>
    intro st hthr _
    cases ts with
    | nil =>
      simp only [List.foldl_cons, List.foldl_nil, recordFailure]
      split
      · rfl
      · rename_i hcond
        exfalso
        apply hcond
        simpa using hthr
    | cons t2 ts2 =>
      simp only [List.foldl_cons]
      refine ih (recordFailure st config t) ?_ (by simp)
      rw [recordFailure_failures]
      simp only [List.length_cons] at hthr ⊢
      omega

theorem requestLoop_expired_attempts {V E : Type} (config : InternalApiConfig)
    (oracle : String → Nat → AttemptOutcome V E) (now : Nat) (apiName : String)
    (ep : Endpoint) (rest : List Endpoint)
    (b : String → Option CircuitBreakerState) (le : Option E) (a : Nat)
    (st : CircuitBreakerState)
    (hst : (b (joinKey apiName ep.url)).getD ⟨0, 0, false⟩ = st)
    (hopen : st.isOpen = true)
    (hexpired : config.circuitBreakerResetTime < now - st.lastFailure) :
    a + 1 ≤ (requestLoop config oracle now apiName (ep :: rest) b le a).attempts := by
  have hco : isCircuitOpen st config now =
      (false, { st with isOpen := false, failures := 0 }) := by
    simp [isCircuitOpen, hopen, hexpired]
  have hpos := makeRequest_attempts_pos (oracle ep.url)
    (falsyOr ep.retries config.defaultRetries)
  simp only [requestLoop, hst, hco]
  split
  · rename_i hcond
    simp at hcond
  · split
    · simp
      omega
    · exact le_trans (by omega)
        (requestLoop_attempts_le config oracle now apiName rest _ _ _)

/-- C2: (a) after `threshold` consecutive recorded failures a breaker is
open; (b) while `now - lastFailureAtMs ≤ resetMs` an open breaker makes the
`request` endpoint walk skip the endpoint entirely — no network attempt, no
state change; (c) at the first consultation with
`now - lastFailureAtMs > resetMs` the breaker is closed with its failure
count zeroed, and the endpoint is attempted again (at least one network
attempt follows — there is no half-open probing state). -/
theorem circuitBreaker_lifecycle {V E : Type} (config : InternalApiConfig)
    (oracle : String → Nat → AttemptOutcome V E) (apiName : String)
    (hthr : 1 ≤ config.circuitBreakerThreshold) :
    (∀ (times : List Nat) (st0 : CircuitBreakerState), st0.failures = 0 →
      config.circuitBreakerThreshold ≤ times.length →
      (times.foldl (fun s1 t => recordFailure s1 config t) st0).isOpen = true) ∧
    (∀ (now : Nat) (ep : Endpoint) (rest : List Endpoint)
      (b : String → Option CircuitBreakerState) (le : Option E) (a : Nat)
      (st : CircuitBreakerState),
      (b (joinKey apiName ep.url)).getD ⟨0, 0, false⟩ = st → st.isOpen = true →
      now - st.lastFailure ≤ config.circuitBreakerResetTime →
      requestLoop config oracle now apiName (ep :: rest) b le a =
        requestLoop config oracle now apiName rest b le a) ∧
    (∀ (now : Nat) (st : CircuitBreakerState), st.isOpen = true →
      config.circuitBreakerResetTime < now - st.lastFailure →
      isCircuitOpen st config now =
        (false, { st with isOpen := false, failures := 0 })) ∧
    (∀ (now : Nat) (ep : Endpoint) (rest : List Endpoint)
      (b : String → Option CircuitBreakerState) (le : Option E) (a : Nat)
      (st : CircuitBreakerState),
      (b (joinKey apiName ep.url)).getD ⟨0, 0, false⟩ = st → st.isOpen = true →
      config.circuitBreakerResetTime < now - st.lastFailure →
      a + 1 ≤ (requestLoop config oracle now apiName (ep :: rest) b le a).attempts) := by
  refine ⟨?_, ?_, ?_, ?_⟩
  · intro times st0 h0 hlen
    refine recordFailure_foldl_opens config times st0 (by omega) (by omega)
  · intro now ep rest b le a st hst hopen hwithin
    exact requestLoop_skip config oracle now apiName ep rest b le a st hst hopen
      (by omega)
  · intro now st hopen hexp
    simp [isCircuitOpen, hopen, hexp]
  · intro now ep rest b le a st hst hopen hexp
    exact requestLoop_expired_attempts config oracle now apiName ep rest b le a st
      hst hopen hexp

/-- Witness for C2 with threshold 2 and reset time 1000: two failures open
the breaker; a consultation at `now = 600` (100 ms after the failure) skips
the endpoint; a consultation at `now = 2000` closes and zeroes it and the
endpoint is attempted. -/
theorem circuitBreaker_lifecycle_witness :
    (([1, 2].foldl (fun s1 t => recordFailure s1 cfgSmall t)
        ⟨0, 0, false⟩).isOpen = true) ∧
    (requestLoop cfgSmall oracleOnlyV 600 "a" [⟨"u", 1, none, none⟩]
        breakersOpenU none 0 =
      requestLoop cfgSmall oracleOnlyV 600 "a" [] breakersOpenU none 0) ∧
    (isCircuitOpen ⟨2, 500, true⟩ cfgSmall 2000 = (false, ⟨0, 500, false⟩)) ∧
    (0 + 1 ≤ (requestLoop cfgSmall oracleOnlyV 2000 "a" [⟨"u", 1, none, none⟩]
        breakersOpenU none 0).attempts) := by
  have h := circuitBreaker_lifecycle cfgSmall oracleOnlyV "a" (by decide)
  exact ⟨h.1 [1, 2] ⟨0, 0, false⟩ rfl (by decide),
    h.2.1 600 ⟨"u", 1, none, none⟩ [] breakersOpenU none 0 ⟨2, 500, true⟩
      (by decide) rfl (by decide),
    h.2.2.1 2000 ⟨2, 500, true⟩ rfl (by decide),
    h.2.2.2 2000 ⟨"u", 1, none, none⟩ [] breakersOpenU none 0 ⟨2, 500, true⟩
      (by decide) rfl (by decide)⟩

theorem freshCacheHit_mem {V : Type} (s : ManagerState V) (k : String)
    (cacheTtl now : Nat) (c : CacheEntry V)
    (h : freshCacheHit s k cacheTtl now = some c) : s.cache k = some c := by
  unfold freshCacheHit at h
  by_cases ht : 0 < cacheTtl
  · rw [if_pos ht] at h
    cases hc : s.cache k with
    | some cached =>
      simp only [hc] at h
      by_cases hfr : now - cached.timestamp < cached.ttl
      · rw [if_pos hfr] at h
        exact h
      · rw [if_neg hfr] at h
        exact Option.noConfusion h
    | none =>
      simp [hc] at h
  · rw [if_neg ht] at h
    exact Option.noConfusion h

theorem requestLoop_exhausted {V E : Type} {config : InternalApiConfig}
    {oracle : String → Nat → AttemptOutcome V E} {now : Nat} {apiName : String} :
    ∀ {l : List Endpoint} {b : String → Option CircuitBreakerState}
      {le leF : Option E},
      Exhausted config oracle now apiName l b le leF →
      ∀ a, (requestLoop config oracle now apiName l b le a).success = none ∧
        (requestLoop config oracle now apiName l b le a).lastError = leF := by
  intro l b le leF h
  induction h with
  | nil b le =>
    intro a
    simp [requestLoop]
  | skip ep rest b le leF st hst hopen hwithin htail ih =>
    intro a
    rw [requestLoop_skip config oracle now apiName ep rest b le a st hst hopen hwithin]
    exact ih a
  | failClosed ep rest b le leF st e hst hclosed herr htail ih =>
    intro a
    rw [requestLoop_fail_closed config oracle now apiName ep rest b le a st e
      hst hclosed herr]
    exact ih _
  | failExpired ep rest b le leF st e hst hopen hexpired herr htail ih =>
    intro a
    rw [requestLoop_fail_expired config oracle now apiName ep rest b le a st e
      hst hopen hexpired herr]
    exact ih _

/-- C3: for a call in which every registered endpoint is either skipped
(breaker open within the reset window) or fails after exhausting its retries:
if any cache entry exists for `apiName:path` — at any age, regardless of the
call's `cacheTtl` — `request` returns that entry's payload without raising;
otherwise it raises the terminal error carrying the last endpoint error
encountered (`none`, i.e. the source's fresh generic `All endpoints failed`
error, when every endpoint was skipped and no endpoint error exists). -/
theorem request_exhausted_fallback {V E : Type} (s : ManagerState V)
    (oracle : String → Nat → AttemptOutcome V E) (now : Nat)
    (apiName path : String) (cacheTtl : Nat) (config : InternalApiConfig)
    (leF : Option E)
    (hcfg : s.configs apiName = some config)
    (hex : Exhausted config oracle now apiName config.endpoints s.breakers
      none leF) :
    (∀ c, s.cache (joinKey apiName path) = some c →
      (request s oracle now apiName path cacheTtl).res = .ok c.data) ∧
    (s.cache (joinKey apiName path) = none →
      (request s oracle now apiName path cacheTtl).res =
        .error (.upstreamUnavailable leF)) := by
  obtain ⟨hs, hl⟩ := requestLoop_exhausted hex 0
  constructor
  · intro c hc
    cases hf : freshCacheHit s (joinKey apiName path) cacheTtl now with
    | some cached =>
      have hcc := freshCacheHit_mem s (joinKey apiName path) cacheTtl now cached hf
      rw [hc] at hcc
      cases hcc
      simp [request, hcfg, hf]
    | none =>
      simp [request, hcfg, hf, hs, hc]
  · intro hc
    cases hf : freshCacheHit s (joinKey apiName path) cacheTtl now with
    | some cached =>
      have hcc := freshCacheHit_mem s (joinKey apiName path) cacheTtl now cached hf
      rw [hc] at hcc
      exact Option.noConfusion hcc
    | none =>
      simp [request, hcfg, hf, hs, hl, hc]

/-- Witness for C3: API `"a"` with endpoint `u` skipped (breaker open since
time 100, consulted at time 200) and endpoint `x` failing all retries with
error 7; the cache is empty, so the call raises carrying error 7. -/
theorem request_exhausted_fallback_witness :
    (request mgrExhausted oracleOnlyV 200 "a" "" 0).res =
      .error (.upstreamUnavailable (some 7)) := by
  have hex : Exhausted cfgUX oracleOnlyV 200 "a" cfgUX.endpoints
      mgrExhausted.breakers none (some 7) :=
    Exhausted.skip ⟨"u", 1, none, none⟩ [⟨"x", 2, none, none⟩]
      mgrExhausted.breakers none (some 7) ⟨5, 100, true⟩
      (by decide) rfl (by decide)
      (Exhausted.failClosed ⟨"x", 2, none, none⟩ [] mgrExhausted.breakers none
        (some 7) ⟨0, 0, false⟩ 7 (by decide) rfl (by decide)
        (Exhausted.nil _ (some 7)))
  have h := request_exhausted_fallback mgrExhausted oracleOnlyV 200 "a" "" 0
    cfgUX (some 7) (by decide) hex
  exact h.2 (by decide)

theorem request_preserves_configs {V E : Type} (s : ManagerState V)
    (oracle : String → Nat → AttemptOutcome V E) (now : Nat)
    (apiName path : String) (cacheTtl : Nat) :
    (request s oracle now apiName path cacheTtl).state.configs = s.configs := by
  simp only [request]
  cases hcfg : s.configs apiName with
  | none => rfl
  | some config =>
    cases hf : freshCacheHit s (joinKey apiName path) cacheTtl now with
    | some cached => rfl
    | none =>
      cases hs : (requestLoop config oracle now apiName config.endpoints
          s.breakers none 0).success with
      | some v => simp only [hs]
      | none =>
        simp only [hs]
        cases hcc : s.cache (joinKey apiName path) with
        | some cached => simp only [hcc]
        | none => simp only [hcc]

theorem request_ok_cache {V E : Type} (s : ManagerState V)
    (oracle : String → Nat → AttemptOutcome V E) (now : Nat)
    (apiName path : String) (cacheTtl : Nat) (v : V)
    (hres : (request s oracle now apiName path cacheTtl).res = .ok v)
    (ht : 0 < cacheTtl) :
    ∃ c, (request s oracle now apiName path cacheTtl).state.cache
        (joinKey apiName path) = some c ∧ c.data = v ∧
      ∃ config, s.configs apiName = some config := by
  simp only [request] at hres ⊢
  cases hcfg : s.configs apiName with
  | none => simp [hcfg] at hres
  | some config =>
    cases hf : freshCacheHit s (joinKey apiName path) cacheTtl now with
    | some cached =>
      have hmem := freshCacheHit_mem s (joinKey apiName path) cacheTtl now cached hf
      have hd : cached.data = v := by simpa [hcfg, hf] using hres
      refine ⟨cached, ?_, hd, config, rfl⟩
      simpa [hcfg, hf] using hmem
    | none =>
      cases hs : (requestLoop config oracle now apiName config.endpoints
          s.breakers none 0).success with
      | some w =>
        have hd : w = v := by simpa [hcfg, hf, hs] using hres
        refine ⟨⟨w, now, cacheTtl⟩, ?_, hd, config, rfl⟩
        simp [hcfg, hf, hs, ht, mapSet_eq]
      | none =>
        cases hcc : s.cache (joinKey apiName path) with
        | some cached =>
          have hd : cached.data = v := by simpa [hcfg, hf, hs, hcc] using hres
          exact ⟨cached, by simp [hcfg, hf, hs, hcc], hd, config, rfl⟩
        | none => simp [hcfg, hf, hs, hcc] at hres

/-- C4: after a `request` call with `cacheTtl > 0` succeeded (leaving a cache
entry for `apiName:path`), a second call for the same pair with any positive
`cacheTtl`, made while `now − storedAt < ttl` of the stored entry, returns
the identical cached payload immediately: zero network attempts and a
completely unchanged manager state (in particular no breaker mutation). -/
theorem request_fresh_cache_hit {V E : Type} (s : ManagerState V)
    (oracle oracle2 : String → Nat → AttemptOutcome V E) (now1 now2 : Nat)
    (apiName path : String) (ttl1 ttl2 : Nat) (v : V) (c : CacheEntry V)
    (h1 : (request s oracle now1 apiName path ttl1).res = .ok v)
    (ht1 : 0 < ttl1) (ht2 : 0 < ttl2)
    (hc : (request s oracle now1 apiName path ttl1).state.cache
      (joinKey apiName path) = some c)
    (hfresh : now2 - c.timestamp < c.ttl) :
    request ((request s oracle now1 apiName path ttl1).state) oracle2 now2
        apiName path ttl2 =
      ⟨.ok c.data, (request s oracle now1 apiName path ttl1).state, 0⟩ ∧
    c.data = v := by
  obtain ⟨c', hc', hd', config, hcfg⟩ :=
    request_ok_cache s oracle now1 apiName path ttl1 v h1 ht1
  have hcc : c' = c := Option.some.inj (hc'.symm.trans hc)
  have hcfg2 : (request s oracle now1 apiName path ttl1).state.configs apiName =
      some config := by
    rw [request_preserves_configs]
    exact hcfg
  have hhit : freshCacheHit ((request s oracle now1 apiName path ttl1).state)
      (joinKey apiName path) ttl2 now2 = some c := by
    unfold freshCacheHit
    rw [if_pos ht2]
    simp [hc, hfresh]
  constructor
  · generalize hgen : (request s oracle now1 apiName path ttl1).state = s1 at hcfg2 hhit ⊢
    simp [request, hcfg2, hhit]
  · rw [← hcc]
    exact hd'

/-- Witness for C4: a first call stores `⟨7, 0, 5000⟩` under `"a:p"`; a second
call at time 3000 returns 7 with zero attempts and the state untouched. -/
theorem request_fresh_cache_hit_witness :
    request ((request mgrSingle oracleAlways7 0 "a" "p" 5000).state)
        oracleAlways7 3000 "a" "p" 5000 =
      ⟨.ok (⟨7, 0, 5000⟩ : CacheEntry Nat).data,
       (request mgrSingle oracleAlways7 0 "a" "p" 5000).state, 0⟩ ∧
    (⟨7, 0, 5000⟩ : CacheEntry Nat).data = 7 :=
  request_fresh_cache_hit mgrSingle oracleAlways7 oracleAlways7 0 3000 "a" "p"
    5000 5000 7 ⟨7, 0, 5000⟩ (by decide) (by decide) (by decide) (by decide)
    (by decide)

theorem foldl_mapSet_lookup {β : Type} (f : Endpoint → String) (v : β) :
    ∀ (l : List Endpoint) (b : String → Option β) (q : String),
      (l.foldl (fun m ep => mapSet m (f ep) v) b) q = some v ∨
      (l.foldl (fun m ep => mapSet m (f ep) v) b) q = b q := by
  intro l
  induction l with
  | nil => intro b q; exact Or.inr rfl
  | cons e l ih =>
    intro b q
    simp only [List.foldl_cons]
    rcases ih (mapSet b (f e) v) q with h | h
    · exact Or.inl h
    · rw [h]
      by_cases hq : q = f e
      · subst hq
        rw [mapSet_eq]
        exact Or.inl rfl
      · rw [mapSet_ne _ _ _ _ hq]
        exact Or.inr rfl

theorem foldl_mapSet_mem {β : Type} (f : Endpoint → String) (v : β) :
    ∀ (l : List Endpoint) (b : String → Option β) (ep : Endpoint), ep ∈ l →
      (l.foldl (fun m e2 => mapSet m (f e2) v) b) (f ep) = some v := by
  intro l
  induction l with
  | nil => intro b ep h; exact absurd h (List.not_mem_nil ep)
  | cons e l ih =>
    intro b ep hep
    simp only [List.foldl_cons]
    rcases List.mem_cons.mp hep with h | h
    · subst h
      rcases foldl_mapSet_lookup f v l (mapSet b (f ep) v) (f ep) with h2 | h2
      · exact h2
      · rw [h2, mapSet_eq]
    · exact ih _ ep h

/-- C7: `registerApi` always succeeds (it is a total function performing no
runtime validation of names or URLs); it stores under `name` the endpoint
list with the primary `baseUrl` at priority 1 and the i-th fallback URL
(0-based) at priority `i + 2` in input order; it fully replaces any prior
config stored under `name` (the prior state `s` is arbitrary), and sets the
breaker of every endpoint of the new list to closed with zero failures. -/
theorem registerApi_replaces_and_resets {V : Type} (s : ManagerState V)
    (name : String) (config : ApiConfig) :
    ((registerApi s name config).configs name =
      some (toInternalConfig name config)) ∧
    (toInternalConfig name config).endpoints.length
      = 1 + (config.fallbackUrls.getD []).length ∧
    (∀ h0 : 0 < (toInternalConfig name config).endpoints.length,
      (toInternalConfig name config).endpoints.get ⟨0, h0⟩ =
        ⟨config.baseUrl, 1, config.timeout, config.retries⟩) ∧
    (∀ i (hi : i < (config.fallbackUrls.getD []).length)
        (hi1 : i + 1 < (toInternalConfig name config).endpoints.length),
      (toInternalConfig name config).endpoints.get ⟨i + 1, hi1⟩ =
        ⟨(config.fallbackUrls.getD []).get ⟨i, hi⟩, i + 2,
         config.timeout, config.retries⟩) ∧
    (∀ ep ∈ (toInternalConfig name config).endpoints,
      (registerApi s name config).breakers (joinKey name ep.url) =
        some ⟨0, 0, false⟩) := by
  refine ⟨?_, ?_, ?_, ?_, ?_⟩
  · simp [registerApi, mapSet_eq]
  · simp only [toInternalConfig, buildEndpoints, List.length_cons,
      List.length_map, List.enum_length]
    omega
  · intro h0
    rfl
  · intro i hi hi1
    simp only [toInternalConfig, buildEndpoints, List.get_eq_getElem,
      List.getElem_cons_succ, List.getElem_map, List.getElem_enum]
  · intro ep hep
    exact foldl_mapSet_mem (fun e2 => joinKey name e2.url) ⟨0, 0, false⟩
      (buildEndpoints config) s.breakers ep hep

/-- Witness for C7 at a concrete registration with two fallbacks over an
arbitrary prior state (`mgrSingle`, which already holds an API named "a"). -/
theorem registerApi_replaces_and_resets_witness :
    ((registerApi mgrSingle "a" ⟨"u", some ["w", "v"], none, none, none, none⟩).configs
        "a" = some cfgDistinct) ∧
    cfgDistinct.endpoints.length = 1 + 2 ∧
    (∀ h0 : 0 < cfgDistinct.endpoints.length,
      cfgDistinct.endpoints.get ⟨0, h0⟩ = ⟨"u", 1, none, none⟩) ∧
    (∀ i (hi : i < (["w", "v"] : List String).length)
        (hi1 : i + 1 < cfgDistinct.endpoints.length),
      cfgDistinct.endpoints.get ⟨i + 1, hi1⟩ =
        ⟨(["w", "v"] : List String).get ⟨i, hi⟩, i + 2, none, none⟩) ∧
    (∀ ep ∈ cfgDistinct.endpoints,
      (registerApi mgrSingle "a"
          ⟨"u", some ["w", "v"], none, none, none, none⟩).breakers
        (joinKey "a" ep.url) = some ⟨0, 0, false⟩) :=
  registerApi_replaces_and_resets mgrSingle "a"
    ⟨"u", some ["w", "v"], none, none, none, none⟩

/-- C8: the overall health status computed by `performHealthCheck` obeys
worst-of-checks precedence: unhealthy if at least one check is unhealthy,
else degraded if at least one check is degraded, else healthy. -/
theorem overallStatus_worst (checks : List HealthCheckResult) :
    ((∃ c ∈ checks, c.status = .unhealthy) →
      overallStatus checks = .unhealthy) ∧
    ((∀ c ∈ checks, c.status ≠ .unhealthy) →
      (∃ c ∈ checks, c.status = .degraded) →
      overallStatus checks = .degraded) ∧
    ((∀ c ∈ checks, c.status ≠ .unhealthy) →
      (∀ c ∈ checks, c.status ≠ .degraded) →
      overallStatus checks = .healthy) := by
  refine ⟨?_, ?_, ?_⟩
  · rintro ⟨c, hc, hst⟩
    have hmem : c ∈ checks.filter (fun c2 => c2.status == .unhealthy) :=
      List.mem_filter.mpr ⟨hc, by simp [hst]⟩
    have hpos : 0 < (checks.filter (fun c2 => c2.status == .unhealthy)).length :=
      List.length_pos.mpr (List.ne_nil_of_mem hmem)
    simp [overallStatus, hpos]
  · rintro hnone ⟨c, hc, hst⟩
    have hnil : checks.filter (fun c2 => c2.status == .unhealthy) = [] :=
      List.filter_eq_nil_iff.mpr (fun c2 hc2 => by simpa using hnone c2 hc2)
    have hmem : c ∈ checks.filter (fun c2 => c2.status == .degraded) :=
      List.mem_filter.mpr ⟨hc, by simp [hst]⟩
    have hpos : 0 < (checks.filter (fun c2 => c2.status == .degraded)).length :=
      List.length_pos.mpr (List.ne_nil_of_mem hmem)
    simp [overallStatus, hnil, hpos]
  · intro h1 h2
    have hnil1 : checks.filter (fun c2 => c2.status == .unhealthy) = [] :=
      List.filter_eq_nil_iff.mpr (fun c2 hc2 => by simpa using h1 c2 hc2)
    have hnil2 : checks.filter (fun c2 => c2.status == .degraded) = [] :=
      List.filter_eq_nil_iff.mpr (fun c2 hc2 => by simpa using h2 c2 hc2)
    simp [overallStatus, hnil1, hnil2]

/-- Witness for C8 on two concrete check lists. -/
theorem overallStatus_worst_witness :
    overallStatus [⟨"fs", .degraded⟩, ⟨"mem", .healthy⟩] = .degraded ∧
    overallStatus [⟨"fs", .degraded⟩, ⟨"mem", .unhealthy⟩] = .unhealthy := by
  constructor
  · exact (overallStatus_worst [⟨"fs", .degraded⟩, ⟨"mem", .healthy⟩]).2.1
      (by decide) ⟨⟨"fs", .degraded⟩, by decide, rfl⟩
  · exact (overallStatus_worst [⟨"fs", .degraded⟩, ⟨"mem", .unhealthy⟩]).1
      ⟨⟨"mem", .unhealthy⟩, by decide, rfl⟩

theorem falsyOr_ne_zero (o : Option Nat) (d : Nat) (hd : d ≠ 0) :
    falsyOr o d ≠ 0 := by
  cases o with
  | none => simp [falsyOr, hd]
  | some n =>
    by_cases hn : n = 0
    · simp [falsyOr, hn, hd]
    · simp [falsyOr, hn]

theorem buildEndpoints_fields (config : ApiConfig) :
    ∀ ep ∈ buildEndpoints config,
      ep.timeout = config.timeout ∧ ep.retries = config.retries := by
  intro ep hep
  rcases List.mem_cons.mp hep with h | h
  · subst h
    exact ⟨rfl, rfl⟩
  · obtain ⟨p, _, hpe⟩ := List.mem_map.mp h
    subst hpe
    exact ⟨rfl, rfl⟩

/-- C9: defaults are applied with JavaScript falsy `||`, so an API registered
with `retries = 0` (or `timeout = 0`) gets the default (3 retries, 10000 ms
timeout) rather than 0; the effective per-endpoint values the fetcher uses
(`endpoint.retries || config.defaultRetries` and `endpoint.timeout ||
config.defaultTimeout`) are never 0 for a registered API, so no API or
endpoint can be configured to make exactly one attempt (retry budget 0,
which would give `0 + 1` attempts) or to use a zero timeout through these
options. -/
theorem falsy_zero_defaults (name : String) (config : ApiConfig) :
    ((config.retries = some 0 ∨ config.retries = none) →
      (toInternalConfig name config).defaultRetries = 3) ∧
    ((config.timeout = some 0 ∨ config.timeout = none) →
      (toInternalConfig name config).defaultTimeout = 10000) ∧
    (∀ ep ∈ (toInternalConfig name config).endpoints,
      falsyOr ep.retries (toInternalConfig name config).defaultRetries ≠ 0 ∧
      falsyOr ep.timeout (toInternalConfig name config).defaultTimeout ≠ 0) ∧
    (config.retries = some 0 →
      ∀ ep ∈ (toInternalConfig name config).endpoints,
        falsyOr ep.retries (toInternalConfig name config).defaultRetries = 3) ∧
    (config.timeout = some 0 →
      ∀ ep ∈ (toInternalConfig name config).endpoints,
        falsyOr ep.timeout (toInternalConfig name config).defaultTimeout = 10000) ∧
    (∀ d : Nat, falsyOr (some 0) d = d ∧ falsyOr none d = d) := by
  refine ⟨?_, ?_, ?_, ?_, ?_, ?_⟩
  · rintro (h | h) <;> simp [toInternalConfig, falsyOr, h]
  · rintro (h | h) <;> simp [toInternalConfig, falsyOr, h]
  · intro ep hep
    obtain ⟨ht, hr⟩ := buildEndpoints_fields config ep hep
    constructor
    · rw [hr]
      exact falsyOr_ne_zero config.retries _
        (falsyOr_ne_zero config.retries 3 (by decide))
    · rw [ht]
      exact falsyOr_ne_zero config.timeout _
        (falsyOr_ne_zero config.timeout 10000 (by decide))
  · intro h ep hep
    obtain ⟨_, hr⟩ := buildEndpoints_fields config ep hep
    rw [hr, h]
    simp [toInternalConfig, falsyOr, h]
  · intro h ep hep
    obtain ⟨ht, _⟩ := buildEndpoints_fields config ep hep
    rw [ht, h]
    simp [toInternalConfig, falsyOr, h]
  · intro d
    exact ⟨by simp [falsyOr], rfl⟩

/-- Witness for C9 at a registration with `timeout = 0` and `retries = 0`. -/
theorem falsy_zero_defaults_witness :
    (toInternalConfig "a" ⟨"u", none, some 0, some 0, none, none⟩).defaultRetries
      = 3 ∧
    (∀ ep ∈ (toInternalConfig "a" ⟨"u", none, some 0, some 0, none, none⟩).endpoints,
      falsyOr ep.retries
        (toInternalConfig "a" ⟨"u", none, some 0, some 0, none, none⟩).defaultRetries
        = 3) ∧
    (∀ ep ∈ (toInternalConfig "a" ⟨"u", none, some 0, some 0, none, none⟩).endpoints,
      falsyOr ep.timeout
        (toInternalConfig "a" ⟨"u", none, some 0, some 0, none, none⟩).defaultTimeout
        = 10000) := by
  have h := falsy_zero_defaults "a" ⟨"u", none, some 0, some 0, none, none⟩
  exact ⟨h.1 (Or.inl rfl), h.2.2.2.1 rfl, h.2.2.2.2.1 rfl⟩

theorem checkLimit_fresh (s : RateLimiterState) (identifier limitKey : String)
    (now : Nat) (config : RateLimitConfig)
    (hcfg : s.configs limitKey = some config)
    (hcur : s.limits (joinKey limitKey identifier) = none ∨
      ∃ cur, s.limits (joinKey limitKey identifier) = some cur ∧
        cur.resetTime ≤ now) :
    checkLimit s identifier limitKey now =
      (⟨true, some (now + config.windowMs),
        some ((config.maxRequests : Int) - 1), false⟩,
       { s with
         limits :=
           mapSet s.limits (joinKey limitKey identifier) ⟨1, now + config.windowMs⟩ }) := by
  rcases hcur with h | ⟨cur, hc, hr⟩
  · simp [checkLimit, hcfg, h]
  · simp [checkLimit, hcfg, hc, hr]

theorem checkLimit_increment (s : RateLimiterState) (identifier limitKey : String)
    (now : Nat) (config : RateLimitConfig) (c R : Nat)
    (hcfg : s.configs limitKey = some config)
    (hc : s.limits (joinKey limitKey identifier) = some ⟨c, R⟩)
    (hnow : now < R) (hlt : c < config.maxRequests) :
    checkLimit s identifier limitKey now =
      (⟨true, some R, some ((config.maxRequests : Int) - (c + 1)), false⟩,
       { s with
         limits := mapSet s.limits (joinKey limitKey identifier) ⟨c + 1, R⟩ }) := by
  have h1 : ¬ ((⟨c, R⟩ : RateLimitData).resetTime ≤ now) := by
    show ¬ R ≤ now
    omega
  have h2 : ¬ (config.maxRequests ≤ (⟨c, R⟩ : RateLimitData).count) := by
    show ¬ config.maxRequests ≤ c
    omega
  simp [checkLimit, hcfg, hc, h1, h2]

theorem checkLimit_denied (s : RateLimiterState) (identifier limitKey : String)
    (now : Nat) (config : RateLimitConfig) (c R : Nat)
    (hcfg : s.configs limitKey = some config)
    (hc : s.limits (joinKey limitKey identifier) = some ⟨c, R⟩)
    (hnow : now < R) (hge : config.maxRequests ≤ c) :
    checkLimit s identifier limitKey now =
      (⟨false, some R, some 0, false⟩, s) := by
  have h1 : ¬ ((⟨c, R⟩ : RateLimitData).resetTime ≤ now) := by
    show ¬ R ≤ now
    omega
  simp [checkLimit, hcfg, hc, h1, hge]

theorem checkSeq_append (identifier limitKey : String) :
    ∀ (l1 l2 : List Nat) (s : RateLimiterState),
      checkSeq identifier limitKey s (l1 ++ l2) =
        ((checkSeq identifier limitKey s l1).1 ++
          (checkSeq identifier limitKey
            (checkSeq identifier limitKey s l1).2 l2).1,
         (checkSeq identifier limitKey
           (checkSeq identifier limitKey s l1).2 l2).2) := by
  intro l1
  induction l1 with
  | nil => intro l2 s; simp [checkSeq]
  | cons t ts ih =>
    intro l2 s
    simp [checkSeq, ih]

theorem checkSeq_allowed_run (identifier limitKey : String)
    (config : RateLimitConfig) :
    ∀ (ts : List Nat) (s : RateLimiterState) (c R : Nat),
      s.configs limitKey = some config →
      s.limits (joinKey limitKey identifier) = some ⟨c, R⟩ →
      (∀ t ∈ ts, t < R) →
      c + ts.length ≤ config.maxRequests →
      (checkSeq identifier limitKey s ts).1 =
        (List.range' (c + 1) ts.length).map
          (fun j => ⟨true, some R, some ((config.maxRequests : Int) - j), false⟩) ∧
      (checkSeq identifier limitKey s ts).2.limits (joinKey limitKey identifier) =
        some ⟨c + ts.length, R⟩ ∧
      (checkSeq identifier limitKey s ts).2.configs = s.configs := by
  intro ts
  induction ts with
  | nil =>
    intro s c R hcfg hlim hts hle
    simpa [checkSeq] using hlim
  | cons t ts ih =>
    intro s c R hcfg hlim hts hle
    simp only [List.length_cons] at hle
    have hstep := checkLimit_increment s identifier limitKey t config c R hcfg hlim
      (hts t (List.mem_cons_self t ts)) (by omega)
    have ih1 := ih
      { s with
        limits := mapSet s.limits (joinKey limitKey identifier) ⟨c + 1, R⟩ }
      (c + 1) R hcfg (mapSet_eq _ _ _)
      (fun t2 h2 => hts t2 (List.mem_cons_of_mem _ h2)) (by omega)
    refine ⟨?_, ?_, ?_⟩
    · simp only [checkSeq, hstep, List.length_cons]
      rw [List.range'_succ, List.map_cons, ih1.1]
      simp
    · simp only [checkSeq, hstep, List.length_cons]
      rw [ih1.2.1]
      have harith : c + 1 + ts.length = c + (ts.length + 1) := by omega
      rw [harith]
    · simp only [checkSeq, hstep]
      exact ih1.2.2

/-- C6: with registered policy {maxRequests := 10, windowMs := 60000} and a
fixed identifier starting with no window record: the first 10 calls within one
window return allowed with `remaining` decreasing from 9 to 0; the 11th call
in the same window returns not-allowed with remaining 0 and the window's
reset time; a call at or after the reset time starts a fresh window with
count 1 and remaining 9. Any call with an unregistered `limitKey` returns
allowed (fail-open) with the warning logged (`warned = true`). -/
theorem rateLimiter_window (s : RateLimiterState) (identifier limitKey : String)
    (sk : Option Bool) (t0 t10 tR : Nat) (ts : List Nat)
    (hcfg : s.configs limitKey = some ⟨10, 60000, sk⟩)
    (hnone : s.limits (joinKey limitKey identifier) = none)
    (hts : ∀ t ∈ ts, t < t0 + 60000)
    (hlen : ts.length = 9)
    (ht10 : t10 < t0 + 60000)
    (htR : t0 + 60000 ≤ tR) :
    (checkSeq identifier limitKey s (t0 :: ts ++ [t10, tR])).1 =
      ⟨true, some (t0 + 60000), some 9, false⟩ ::
        ((List.range' 2 9).map
          (fun j => ⟨true, some (t0 + 60000), some ((10 : Int) - j), false⟩) ++
         [⟨false, some (t0 + 60000), some 0, false⟩,
          ⟨true, some (tR + 60000), some 9, false⟩]) ∧
    (checkSeq identifier limitKey s (t0 :: ts ++ [t10, tR])).2.limits
      (joinKey limitKey identifier) = some ⟨1, tR + 60000⟩ ∧
    (∀ (s2 : RateLimiterState) (id2 k2 : String) (t2 : Nat),
      s2.configs k2 = none →
      checkLimit s2 id2 k2 t2 = (⟨true, none, none, true⟩, s2)) := by
  have h0 := checkLimit_fresh s identifier limitKey t0 ⟨10, 60000, sk⟩ hcfg
    (Or.inl hnone)
  have hrun := checkSeq_allowed_run identifier limitKey ⟨10, 60000, sk⟩ ts
    { s with
      limits := mapSet s.limits (joinKey limitKey identifier) ⟨1, t0 + 60000⟩ }
    1 (t0 + 60000) hcfg (mapSet_eq _ _ _) hts (by simp [hlen])
  have hcfg2 : (checkSeq identifier limitKey
      { s with
      limits := mapSet s.limits (joinKey limitKey identifier) ⟨1, t0 + 60000⟩ } ts).2.configs limitKey = some ⟨10, 60000, sk⟩ := by
    rw [hrun.2.2]
    exact hcfg
  have hlim2 : (checkSeq identifier limitKey
      { s with
      limits := mapSet s.limits (joinKey limitKey identifier) ⟨1, t0 + 60000⟩ } ts).2.limits (joinKey limitKey identifier) =
      some ⟨10, t0 + 60000⟩ := by
    rw [hrun.2.1, hlen]
  have hd := checkLimit_denied
    (checkSeq identifier limitKey
      { s with
      limits := mapSet s.limits (joinKey limitKey identifier) ⟨1, t0 + 60000⟩ } ts).2
    identifier limitKey t10 ⟨10, 60000, sk⟩ 10 (t0 + 60000) hcfg2 hlim2 ht10
    (Nat.le_refl 10)
  have hf2 := checkLimit_fresh
    (checkSeq identifier limitKey
      { s with
      limits := mapSet s.limits (joinKey limitKey identifier) ⟨1, t0 + 60000⟩ } ts).2
    identifier limitKey tR ⟨10, 60000, sk⟩ hcfg2
    (Or.inr ⟨⟨10, t0 + 60000⟩, hlim2, htR⟩)
  have happ := checkSeq_append identifier limitKey ts [t10, tR]
    { s with
      limits := mapSet s.limits (joinKey limitKey identifier) ⟨1, t0 + 60000⟩ }
  refine ⟨?_, ?_, ?_⟩
  · simp only [checkSeq, h0, List.append_eq]
    rw [happ, hrun.1, hlen]
    simp only [checkSeq, hd, hf2]
    norm_num
  · simp only [checkSeq, h0, List.append_eq]
    rw [happ]
    simp only [checkSeq, hd, hf2]
    simp [mapSet_eq]
  · intro s2 id2 k2 t2 hn
    simp [checkLimit, hn]

/-- Witness for C6: times 0, 1..9, then 10 (11th call, denied) and 60000
(fresh window) for identifier `"user1"` against the policy `"command"`. -/
theorem rateLimiter_window_witness :
    (checkSeq "user1" "command"
      ⟨fun _ => none,
       fun k => if k = "command" then some ⟨10, 60000, none⟩ else none⟩
      (0 :: [1, 2, 3, 4, 5, 6, 7, 8, 9] ++ [10, 60000])).1 =
      ⟨true, some 60000, some 9, false⟩ ::
        ((List.range' 2 9).map
          (fun j => ⟨true, some 60000, some ((10 : Int) - j), false⟩) ++
         [⟨false, some 60000, some 0, false⟩,
          ⟨true, some 120000, some 9, false⟩]) ∧
    (checkSeq "user1" "command"
      ⟨fun _ => none,
       fun k => if k = "command" then some ⟨10, 60000, none⟩ else none⟩
      (0 :: [1, 2, 3, 4, 5, 6, 7, 8, 9] ++ [10, 60000])).2.limits
      (joinKey "command" "user1") = some ⟨1, 120000⟩ ∧
    (∀ (s2 : RateLimiterState) (id2 k2 : String) (t2 : Nat),
      s2.configs k2 = none →
      checkLimit s2 id2 k2 t2 = (⟨true, none, none, true⟩, s2)) := by
  have h := rateLimiter_window
    ⟨fun _ => none,
     fun k => if k = "command" then some ⟨10, 60000, none⟩ else none⟩
    "user1" "command" none 0 10 60000 [1, 2, 3, 4, 5, 6, 7, 8, 9]
    (by decide) (by decide) (by decide) (by decide) (by decide) (by decide)
  simpa using h

theorem checkLimit_configs (s : RateLimiterState) (identifier limitKey : String)
    (now : Nat) :
    (checkLimit s identifier limitKey now).2.configs = s.configs := by
  cases hc : s.configs limitKey with
  | none => simp [checkLimit, hc]
  | some config =>
    cases hl : s.limits (joinKey limitKey identifier) with
    | none => simp [checkLimit, hc, hl]
    | some cur =>
      by_cases h1 : cur.resetTime ≤ now
      · simp [checkLimit, hc, hl, h1]
      · by_cases h2 : config.maxRequests ≤ cur.count
        · simp [checkLimit, hc, hl, h1, h2]
        · simp [checkLimit, hc, hl, h1, h2]

theorem checkSeq_count_le (identifier limitKey : String)
    (config : RateLimitConfig) (hmax : 1 ≤ config.maxRequests) :
    ∀ (ts : List Nat) (s : RateLimiterState),
      s.configs limitKey = some config →
      (s.limits (joinKey limitKey identifier) = none ∨
        ∃ d0, s.limits (joinKey limitKey identifier) = some d0 ∧
          d0.count ≤ config.maxRequests) →
      ∀ d, (checkSeq identifier limitKey s ts).2.limits
          (joinKey limitKey identifier) = some d →
        d.count ≤ config.maxRequests := by
  intro ts
  induction ts with
  | nil =>
    intro s hcfg hinv d hd
    simp only [checkSeq] at hd
    rcases hinv with h | ⟨d0, h0, hle⟩
    · rw [h] at hd
      exact Option.noConfusion hd
    · rw [h0] at hd
      cases Option.some.inj hd
      exact hle
  | cons t ts ih =>
    intro s hcfg hinv d hd
    simp only [checkSeq] at hd
    refine ih (checkLimit s identifier limitKey t).2 ?_ ?_ d hd
    · rw [checkLimit_configs]
      exact hcfg
    · rcases hinv with h | ⟨d0, h0, hle⟩
      · have hstep := checkLimit_fresh s identifier limitKey t config hcfg (Or.inl h)
        right
        refine ⟨⟨1, t + config.windowMs⟩, ?_, hmax⟩
        rw [hstep]
        exact mapSet_eq _ _ _
      · by_cases hexp : d0.resetTime ≤ t
        · have hstep := checkLimit_fresh s identifier limitKey t config hcfg
            (Or.inr ⟨d0, h0, hexp⟩)
          right
          refine ⟨⟨1, t + config.windowMs⟩, ?_, hmax⟩
          rw [hstep]
          exact mapSet_eq _ _ _
        · by_cases hge : config.maxRequests ≤ d0.count
          · have hstep := checkLimit_denied s identifier limitKey t config
              d0.count d0.resetTime hcfg h0 (by omega) hge
            right
            refine ⟨d0, ?_, hle⟩
            rw [hstep]
            exact h0
          · have hstep := checkLimit_increment s identifier limitKey t config
              d0.count d0.resetTime hcfg h0 (by omega) (by omega)
            right
            refine ⟨⟨d0.count + 1, d0.resetTime⟩, ?_, ?_⟩
            · rw [hstep]
              exact mapSet_eq _ _ _
            · show d0.count + 1 ≤ config.maxRequests
              omega

/-- C10 counterexample: for the registered policy `{maxRequests := 0,
windowMs := 60000}` the first `checkLimit` call is allowed and stores a
window with count 1 > 0 = maxRequests, so the invariant
`count ≤ maxRequests` fails for a stored window of a registered policy. -/
theorem checkLimit_count_invariant_cex :
    (checkLimit rlZero "u" "k" 0).2.limits (joinKey "k" "u") =
      some ⟨1, 60000⟩ ∧
    ¬ ((1 : Nat) ≤ (0 : Nat)) :=
  ⟨by decide, by decide⟩

/-- C10 (amended): a `checkLimit` call that returns not-allowed leaves the
limiter state completely unchanged (unconditionally — neither count nor
resetTime of any window is modified), so denied calls never extend or
refresh the window; and for every registered policy with `maxRequests ≥ 1`
the invariant `count ≤ maxRequests` holds for the stored window of the
(identifier, limitKey) pair after any sequence of `checkLimit` calls. (The
restriction `maxRequests ≥ 1` is forced by
`checkLimit_count_invariant_cex`: with `maxRequests = 0` the first allowed
call stores count 1 > 0.) -/
theorem checkLimit_denied_frame (identifier limitKey : String)
    (config : RateLimitConfig) (s : RateLimiterState)
    (hcfg : s.configs limitKey = some config)
    (hmax : 1 ≤ config.maxRequests)
    (hinit : s.limits (joinKey limitKey identifier) = none) :
    (∀ (s2 : RateLimiterState) (id2 k2 : String) (t2 : Nat),
      (checkLimit s2 id2 k2 t2).1.allowed = false →
      (checkLimit s2 id2 k2 t2).2 = s2) ∧
    (∀ (ts : List Nat) (d : RateLimitData),
      (checkSeq identifier limitKey s ts).2.limits (joinKey limitKey identifier)
        = some d →
      d.count ≤ config.maxRequests) := by
  constructor
  · intro s2 id2 k2 t2 hall
    cases hc : s2.configs k2 with
    | none => simp [checkLimit, hc] at hall
    | some cfg2 =>
      cases hl : s2.limits (joinKey k2 id2) with
      | none => simp [checkLimit, hc, hl] at hall
      | some cur =>
        by_cases h1 : cur.resetTime ≤ t2
        · simp [checkLimit, hc, hl, h1] at hall
        · by_cases h2 : cfg2.maxRequests ≤ cur.count
          · simp [checkLimit, hc, hl, h1, h2]
          · simp [checkLimit, hc, hl, h1, h2] at hall
  · intro ts d hd
    exact checkSeq_count_le identifier limitKey config hmax ts s hcfg
      (Or.inl hinit) d hd

/-- Witness for the amended C10: a denied call against a full window leaves
the state unchanged, and after three calls (times 0, 1, 2) against the
{maxRequests := 10} policy the stored count 3 satisfies the invariant. -/
theorem checkLimit_denied_frame_witness :
    (checkLimit rlDen "user1" "command" 5).2 = rlDen ∧ (3 : Nat) ≤ 10 := by
  have h := checkLimit_denied_frame "user1" "command" ⟨10, 60000, none⟩ rlTen
    (by decide) (by decide) (by decide)
  exact ⟨h.1 rlDen "user1" "command" 5 (by decide),
    h.2 [0, 1, 2] ⟨3, 60000⟩ (by decide)⟩

end DiscordBot
